import Mathlib

/-!
Verification of the plan-to-action pipeline of the Terminal repository.

The development shallowly embeds the Python sources:
  * `src/agent/terminal_agent.py`   (action extraction and dispatch)
  * `src/mcp_servers/fs/server.py`  (relational-query backend)
  * `src/mcp_servers/python/server.py` (restricted-eval backend)
  * `src/mcp_servers/shell/server.py`  (shell backend)
  * `src/mcp_servers/fetch/server.py`  (fetch backend)

External effects (HTTP, sqlite, subprocesses, exec) are passed in as
explicit oracles; every embedded function additionally reports the
side effects it performed (requests issued, statements executed,
process-management actions), so that claims about "no network call"
or "no commit" are statable.

Python string operations (`replace`, `split`, `strip`, `in`,
`startswith`, `lower`, `upper`) are modelled character-exactly on
`List Char` (ASCII inputs) with fuel-based structural recursion so
that concrete instances evaluate inside the kernel.
-/

/-- Python-style `str.replace(pat, rep)` worker: scans left to right,
replacing non-overlapping occurrences, driven by a fuel that bounds the
remaining length.  Matches CPython semantics for a nonempty pattern. -/
def replaceFuel (pat rep : List Char) : Nat → List Char → List Char
  | _, [] => []
  | 0, _ :: _ => []
  | f + 1, c :: cs =>
    if pat ≠ [] ∧ pat.isPrefixOf (c :: cs) = true then
      rep ++ replaceFuel pat rep f ((c :: cs).drop pat.length)
    else
      c :: replaceFuel pat rep f cs

/-- Python-style `str.replace` on character lists (nonempty pattern). -/
def replaceL (pat rep s : List Char) : List Char :=
  replaceFuel pat rep s.length s

/-- Python-style `str.split(pat)` worker (nonempty separator). -/
def splitFuel (pat : List Char) : Nat → List Char → List (List Char)
  | _, [] => [[]]
  | 0, _ :: _ => [[]]
  | f + 1, c :: cs =>
    if pat ≠ [] ∧ pat.isPrefixOf (c :: cs) = true then
      [] :: splitFuel pat f ((c :: cs).drop pat.length)
    else
      match splitFuel pat f cs with
      | [] => [[c]]
      | t :: ts => (c :: t) :: ts

/-- Python-style `str.split(pat)` on character lists (nonempty separator). -/
def splitL (pat s : List Char) : List (List Char) :=
  splitFuel pat s.length s

/-- Python-style `str.strip()` (whitespace from both ends). -/
def trimL (s : List Char) : List Char :=
  ((s.dropWhile Char.isWhitespace).reverse.dropWhile Char.isWhitespace).reverse

/-- Python `s.replace(pat, rep)`. -/
def strReplace (s pat rep : String) : String :=
  ⟨replaceL pat.data rep.data s.data⟩

/-- Python `pat in s` on character lists: contiguous substring test. -/
def isSubL (pat : List Char) : List Char → Bool
  | [] => pat.isEmpty
  | c :: cs => pat.isPrefixOf (c :: cs) || isSubL pat cs

/-- Python `pat in s` (contiguous substring test). -/
def containsStr (s pat : String) : Bool :=
  isSubL pat.data s.data

/-- Python `s.startswith(pat)`. -/
def strStartsWith (s pat : String) : Bool :=
  pat.data.isPrefixOf s.data

/-- Python `s.endswith(pat)`. -/
def strEndsWith (s pat : String) : Bool :=
  pat.data.isSuffixOf s.data

/-- Python `s.strip()`. -/
def strTrim (s : String) : String :=
  ⟨trimL s.data⟩

/-- Python `s.lower()` (ASCII). -/
def strLower (s : String) : String :=
  ⟨s.data.map Char.toLower⟩

/-- Python `s[:n]` (first `n` characters). -/
def strTake (s : String) (n : Nat) : String :=
  ⟨s.data.take n⟩

/-- Python `s.split(pat)[i]` (the caller guarantees the index is in range;
out-of-range yields the empty string). -/
def strSplitAt (s pat : String) (i : Nat) : String :=
  ⟨(splitL pat.data s.data).getD i []⟩

/-! Basic lemmas about the string primitives. -/

theorem isPrefixOf_append_self (l t : List Char) : l.isPrefixOf (l ++ t) = true := by
  induction l with
  | nil => simp [List.isPrefixOf]
  | cons a as ih => simp [List.isPrefixOf, ih]

theorem isSubL_iff (pat s : List Char) : isSubL pat s = true ↔ pat <:+: s := by
  induction s with
  | nil =>
    simp [isSubL, List.isEmpty_iff]
  | cons c cs ih =>
    simp [isSubL, Bool.or_eq_true, List.isPrefixOf_iff_prefix, ih, List.infix_cons_iff]

theorem replaceFuel_congr (pat rep : List Char) :
    ∀ (f g : Nat) (s : List Char), s.length ≤ f → s.length ≤ g →
      replaceFuel pat rep f s = replaceFuel pat rep g s := by
  intro f
  induction f with
  | zero =>
    intro g s hf _
    have hs : s = [] := List.eq_nil_of_length_eq_zero (Nat.le_zero.mp hf)
    subst hs
    cases g <;> rfl
  | succ f ih =>
    intro g s hf hg
    cases s with
    | nil => cases g <;> rfl
    | cons c cs =>
      cases g with
      | zero => simp at hg
      | succ g' =>
        simp only [List.length_cons, Nat.succ_le_succ_iff] at hf hg
        simp only [replaceFuel]
        by_cases hC : pat ≠ [] ∧ pat.isPrefixOf (c :: cs) = true
        · rw [if_pos hC, if_pos hC]
          have hlen : 0 < pat.length := List.length_pos.mpr hC.1
          have hd : ((c :: cs).drop pat.length).length ≤ f := by
            simp only [List.length_drop, List.length_cons]; omega
          have hd' : ((c :: cs).drop pat.length).length ≤ g' := by
            simp only [List.length_drop, List.length_cons]; omega
          rw [ih g' _ hd hd']
        · rw [if_neg hC, if_neg hC, ih g' cs hf hg]

theorem replaceFuel_of_not_infix (pat rep : List Char) :
    ∀ (f : Nat) (s : List Char), s.length ≤ f → ¬ pat <:+: s →
      replaceFuel pat rep f s = s := by
  intro f
  induction f with
  | zero =>
    intro s hf _
    have hs : s = [] := List.eq_nil_of_length_eq_zero (Nat.le_zero.mp hf)
    subst hs; rfl
  | succ f ih =>
    intro s hf h
    cases s with
    | nil => rfl
    | cons c cs =>
      simp only [List.length_cons, Nat.succ_le_succ_iff] at hf
      have hC : ¬ (pat ≠ [] ∧ pat.isPrefixOf (c :: cs) = true) := by
        rintro ⟨-, hpre⟩
        exact h (List.isPrefixOf_iff_prefix.mp hpre).isInfix
      simp only [replaceFuel, if_neg hC]
      rw [ih cs hf (fun hcs => h (List.infix_cons hcs))]

theorem replaceL_of_not_infix (pat rep s : List Char) (h : ¬ pat <:+: s) :
    replaceL pat rep s = s :=
  replaceFuel_of_not_infix pat rep s.length s (Nat.le_refl _) h

theorem replaceL_append_self (pat rep rest : List Char) (hne : pat ≠ []) :
    replaceL pat rep (pat ++ rest) = rep ++ replaceL pat rep rest := by
  cases pat with
  | nil => exact absurd rfl hne
  | cons p ps =>
    have hpre : (p :: ps).isPrefixOf (p :: (ps ++ rest)) = true :=
      isPrefixOf_append_self (p :: ps) rest
    show replaceFuel (p :: ps) rep ((ps ++ rest).length + 1) (p :: (ps ++ rest))
        = rep ++ replaceL (p :: ps) rep rest
    simp only [replaceFuel]
    rw [if_pos ⟨List.cons_ne_nil p ps, hpre⟩]
    have hdrop : List.drop (p :: ps).length (p :: (ps ++ rest)) = rest :=
      List.drop_left (p :: ps) rest
    rw [hdrop]
    congr 1
    exact replaceFuel_congr _ _ _ _ rest (by simp) (Nat.le_refl _)

theorem replaceL_cons_notmem (p : Char) (ps rep pre rest : List Char) (hp : p ∉ pre) :
    replaceL (p :: ps) rep (pre ++ rest) = pre ++ replaceL (p :: ps) rep rest := by
  induction pre with
  | nil => simp
  | cons a pre' ih =>
    have hpa : p ≠ a := fun h => hp (h ▸ List.mem_cons_self a pre')
    have hp' : p ∉ pre' := fun h => hp (List.mem_cons_of_mem a h)
    show replaceFuel (p :: ps) rep ((pre' ++ rest).length + 1) (a :: (pre' ++ rest))
        = (a :: pre') ++ replaceL (p :: ps) rep rest
    simp only [replaceFuel]
    have hC : ¬ ((p :: ps) ≠ [] ∧ (p :: ps).isPrefixOf (a :: (pre' ++ rest)) = true) := by
      rintro ⟨-, hpre⟩
      rw [List.isPrefixOf_iff_prefix] at hpre
      exact hpa (List.cons_prefix_cons.mp hpre).1
    rw [if_neg hC]
    show a :: replaceL (p :: ps) rep (pre' ++ rest) = (a :: pre') ++ replaceL (p :: ps) rep rest
    rw [ih hp']
    rfl

theorem cons_infix_elim {p a : Char} {ps l : List Char} (hne : p ≠ a)
    (h : (p :: ps) <:+: (a :: l)) : (p :: ps) <:+: l := by
  obtain ⟨s, t, hst⟩ := h
  cases s with
  | nil =>
    simp only [List.nil_append, List.cons_append, List.cons.injEq] at hst
    exact absurd hst.1 hne
  | cons b s' =>
    simp only [List.cons_append, List.cons.injEq] at hst
    exact ⟨s', t, hst.2⟩

theorem snoc_infix_elim {q a : Char} {ps l : List Char} (hne : q ≠ a)
    (h : (ps ++ [q]) <:+: (l ++ [a])) : (ps ++ [q]) <:+: l := by
  rw [← List.reverse_infix] at h ⊢
  simp only [List.reverse_append, List.reverse_cons, List.reverse_nil,
    List.nil_append, List.singleton_append] at h ⊢
  exact cons_infix_elim hne h

theorem trimL_cons_ws {c : Char} (hc : c.isWhitespace = true) (s : List Char) :
    trimL (c :: s) = trimL s := by
  simp [trimL, List.dropWhile_cons, hc]

theorem trimL_append_ws {c : Char} (hc : c.isWhitespace = true) (s : List Char) :
    trimL (s ++ [c]) = trimL s := by
  unfold trimL
  rw [List.dropWhile_append]
  by_cases h : (s.dropWhile Char.isWhitespace).isEmpty = true
  · rw [if_pos h]
    rw [List.isEmpty_iff] at h
    simp [List.dropWhile_cons, hc, h]
  · rw [if_neg h]
    simp [List.reverse_append, List.dropWhile_cons, hc]

theorem mem_trimL {c : Char} {s : List Char} (h : c ∈ trimL s) : c ∈ s := by
  unfold trimL at h
  rw [List.mem_reverse] at h
  have h1 := (List.dropWhile_sublist Char.isWhitespace).subset h
  rw [List.mem_reverse] at h1
  exact (List.dropWhile_sublist Char.isWhitespace).subset h1

/-! Embedding of `src/agent/terminal_agent.py`.

`TOOLS` mirrors the static tool registry (the long natural-language
`purpose` strings, which are only interpolated into the LLM prompt, are
elided).  `execute_primary_action` mirrors the parser/dispatcher function
of the same name; the HTTP layer (`requests.post` followed by
`raise_for_status`) is an oracle `net`, and the returned trace lists the
`(url, payload)` of every POST issued, so that retry/no-call claims are
statable.  Any `requests.exceptions.RequestException` — including the
`HTTPError` raised by `raise_for_status` on a 4xx/5xx status — is caught
by the single `except` clause and turned into an error dictionary. -/

/-- One entry of the `TOOLS` list of `terminal_agent.py`. -/
structure ToolSpec where
  name : String
  port : Nat
  endpoint : String
deriving DecidableEq

/-- The `TOOLS` registry (`terminal_agent.py`, lines 29-54). -/
def TOOLS : List ToolSpec :=
  [⟨"SHELL_COMMAND", 8001, "/execute_shell"⟩,
   ⟨"SYSTEM_SQLITE", 8002, "/execute_query"⟩,
   ⟨"PYTHON_EVAL", 8003, "/execute_python"⟩,
   ⟨"FETCH_WEB", 8004, "/fetch_url"⟩]

/-- `HOST_URL` (`terminal_agent.py`, line 26). -/
def HOST_URL : String := "http://172.18.0.1"

/-- Python `next(t for t in TOOLS if t['name'] == tool_name)`. -/
def findTool (n : String) : Option ToolSpec :=
  TOOLS.find? (fun t => t.name == n)

/-- The full backend URL `f"{HOST_URL}:{mcp['port']}{mcp['endpoint']}"`. -/
def mcpUrl (t : ToolSpec) : String :=
  HOST_URL ++ ":" ++ toString t.port ++ t.endpoint

/-- The literal `"### PRIMARY ACTION (Executable):"` marker. -/
def primaryMarker : String := "### PRIMARY ACTION (Executable):"

/-- The literal `"### FALLBACK STEPS (Hierarchy):"` marker. -/
def fallbackMarker : String := "### FALLBACK STEPS (Hierarchy):"

/-- Line 128: `plan_output.split(m1)[1].split(m2)[0].strip()`. -/
def actionBlock (plan : String) : String :=
  strTrim (strSplitAt (strSplitAt plan primaryMarker 1) fallbackMarker 0)

/-- Outcome of the pure parsing/cleaning phase of `execute_primary_action`
(lines 124-155): which branch fired and the cleaned command it produced. -/
inductive ParsedDecision where
  | parseFailure
  | sqlAction (command : String)
  | shellAction (command : String)
  | rationaleOnly (block : String)
  | unknownFormat (block : String)
deriving DecidableEq

/-- The parsing/cleaning phase of `execute_primary_action`, exactly as in
the source: the SQL test (sql fence OR bare `SYSTEM_SQLITE` token) runs
first, then the shell test, then the rationale test, then the unknown
fallback.  Cleaning replaces the fence openers, all remaining fences and
the `TOOLNAME:` prefix by the empty string and strips whitespace; nothing
else (in particular no trailing-semicolon stripping) is applied. -/
def parsePrimaryAction (plan : String) : ParsedDecision :=
  if containsStr plan primaryMarker = false then .parseFailure
  else
    let block := actionBlock plan
    if strStartsWith block "```sql" || containsStr block "SYSTEM_SQLITE" then
      .sqlAction (strTrim (strReplace (strReplace (strReplace block "```sql" "")
        "```" "") "SYSTEM_SQLITE:" ""))
    else if strStartsWith block "```bash" || containsStr block "SHELL_COMMAND" then
      .shellAction (strTrim (strReplace (strReplace (strReplace block "```bash" "")
        "```" "") "SHELL_COMMAND:" ""))
    else if containsStr (strLower block) "rationale" ||
        containsStr (strLower block) "no command" then
      .rationaleOnly block
    else
      .unknownFormat block

/-- JSON payload sent to a backend: `{"query": …}` or `{"command": …}`. -/
inductive ApiData where
  | query (q : String)
  | command (c : String)
deriving DecidableEq

/-- Oracle answer for one `requests.post`: either an HTTP response with a
status code and body, or a transport-level failure (connection error,
client-side timeout, …). -/
inductive HttpResp where
  | response (status : Nat) (body : String)
  | transportError (msg : String)
deriving DecidableEq

/-- Result of one `execute_primary_action` run, as data. -/
inductive AgentResult where
  | parseFailure (msg : String)
  | rationaleOnly (block : String)
  | unknownFormat (block : String)
  | requestError (toolName url : String)
  | success (body : String)
deriving DecidableEq

/-- Message of line 125. -/
def parseFailMsg : String :=
  "Could not parse PRIMARY ACTION from LLM output. LLM did not follow the required output format."

/-- Lines 162-172: one `requests.post(url, json=api_data, timeout=10)`,
then `raise_for_status()`; every raised `RequestException` (transport
failure or 4xx/5xx `HTTPError`) lands in the same `except` branch.  The
second component records every POST issued — the source issues exactly
one and contains no retry loop. -/
def postAction (t : ToolSpec) (data : ApiData) (net : String → ApiData → HttpResp) :
    AgentResult × List (String × ApiData) :=
  let url := mcpUrl t
  match net url data with
  | .response st body =>
    if 400 ≤ st then (.requestError t.name url, [(url, data)])
    else (.success body, [(url, data)])
  | .transportError _ => (.requestError t.name url, [(url, data)])

/-- `execute_primary_action` (`terminal_agent.py`, lines 122-172): parse,
classify, clean, then POST to the resolved tool.  Branches that do not
dispatch return an empty request trace — in the source they `return`
before the registry lookup and before any network call. -/
def execute_primary_action (plan : String) (net : String → ApiData → HttpResp) :
    AgentResult × List (String × ApiData) :=
  match parsePrimaryAction plan with
  | .parseFailure => (.parseFailure parseFailMsg, [])
  | .sqlAction cmd =>
    postAction ((findTool "SYSTEM_SQLITE").getD ⟨"", 0, ""⟩) (.query cmd) net
  | .shellAction cmd =>
    postAction ((findTool "SHELL_COMMAND").getD ⟨"", 0, ""⟩) (.command cmd) net
  | .rationaleOnly b => (.rationaleOnly b, [])
  | .unknownFormat b => (.unknownFormat b, [])

/-! Embedding of `src/mcp_servers/fs/server.py` (relational-query backend).

`sqlite3` is an oracle mapping (database path, query) to an outcome;
`os.path.exists` is an oracle on paths.  Besides the HTTP-level answer,
the function reports whether `cursor.execute` was reached and whether
`conn.commit()` was called, so that "never executed / never committed"
claims are statable. -/

/-- `DB_PATHS` (`fs/server.py`, lines 10-13). -/
def DB_PATHS : List (String × String) :=
  [("system", "/app/system.db"), ("memory", "/app/memory.db")]

/-- Outcome of `cursor.execute(query)` (+ `fetchall` when reached):
either a raised `sqlite3.Error`, or success with the fetched rows. -/
inductive SqliteOutcome where
  | err (msg : String)
  | ok (rows : List (List String))
deriving DecidableEq

/-- HTTP-level answer of `execute_query`. -/
inductive QueryResponse where
  | httpError (status : Nat) (detail : String)
  | selectSuccess (database : String) (results : List (List String)) (count : Nat)
  | executed (database : String)
deriving DecidableEq

/-- Side effects of one `execute_query` call. -/
structure QueryEffects where
  executedStmt : Bool
  committed : Bool
deriving DecidableEq

/-- Python `query.upper().startswith("SELECT")` (ASCII upper-casing). -/
def isSelectPrefixed (q : String) : Bool :=
  "SELECT".data.isPrefixOf (q.data.map Char.toUpper)

/-- `execute_query` (`fs/server.py`, lines 15-64).  Note the source order:
the query is executed *before* the `SELECT` test; the test only selects
between `fetchall` (fetch results) and `conn.commit()` (commit the
write). -/
def execute_query (dbName? : Option String) (query? : Option String)
    (pathExists : String → Bool) (run : String → String → SqliteOutcome) :
    QueryResponse × QueryEffects :=
  let db_name := dbName?.getD "system"
  let query := strTrim (query?.getD "")
  if query = "" then
    (.httpError 400 "Query cannot be empty", ⟨false, false⟩)
  else
    match DB_PATHS.lookup db_name with
    | none =>
      (.httpError 400 ("Unknown database: " ++ db_name ++ ". Use \x27system\x27 or \x27memory\x27"),
        ⟨false, false⟩)
    | some db_path =>
      if pathExists db_path = false then
        (.httpError 500 ("Database file missing: " ++ db_path), ⟨false, false⟩)
      else
        match run db_path query with
        | .err e =>
          (.httpError 400 ("Database error on \x27" ++ db_name ++ "\x27: " ++ e), ⟨true, false⟩)
        | .ok rows =>
          if isSelectPrefixed query then
            (.selectSuccess db_name rows rows.length, ⟨true, false⟩)
          else
            (.executed db_name, ⟨true, true⟩)

/-! Embedding of `src/mcp_servers/python/server.py` (restricted-eval backend).

`exec(code, {'__builtins__': None}, local_scope)` is an oracle giving
either a raised exception or the final `local_scope` (an association
list).  The Bool reports whether `exec` was reached. -/

/-- An opaque Python value living in `local_scope`. -/
inductive PyVal where
  | str (s : String)
  | intv (n : Int)
deriving DecidableEq

/-- Outcome of the `exec` call. -/
inductive ExecOutcome where
  | raises (msg : String)
  | ok (scope : List (String × PyVal))
deriving DecidableEq

/-- HTTP-level answer of `execute_python`. -/
inductive EvalResponse where
  | forbidden (detail : String)
  | execError (detail : String)
  | success (output : PyVal)
deriving DecidableEq

/-- The fixed denylist of `python/server.py`, line 15. -/
def pythonDenylist : List String :=
  ["os.", "sys.", "open(", "import ", "while", "def"]

/-- Detail of the 403 rejection (line 16). -/
def pyForbiddenMsg : String :=
  "Restricted keyword found. Only simple math and assignments are allowed."

/-- The body of the designated no-result success response (line 27). -/
def pyNoResultMsg : String :=
  "Code executed but no explicit \x27result\x27 variable found."

/-- `execute_python` (`python/server.py`, lines 10-30).  The denylist is a
plain substring test run before `exec`; after a successful `exec` the
response is `local_scope['result']` if bound, else `local_scope['output']`
if bound, else the fixed no-result message. -/
def execute_python (code : String) (outcome : ExecOutcome) : EvalResponse × Bool :=
  if pythonDenylist.any (fun kw => containsStr code kw) then
    (.forbidden pyForbiddenMsg, false)
  else
    match outcome with
    | .raises msg => (.execError ("Python Execution Error: " ++ msg), true)
    | .ok scope =>
      match scope.lookup "result" with
      | some v => (.success v, true)
      | none =>
        match scope.lookup "output" with
        | some v => (.success v, true)
        | none => (.success (.str pyNoResultMsg), true)

/-! Embedding of `src/mcp_servers/shell/server.py` (shell backend).

`shlex.split` and the subprocess are oracles.  The process-action trace
records the explicit `proc.kill()` / `await proc.wait()` calls performed
by the timeout handler, so that the kill-and-reap claim is statable. -/

/-- What `await proc.communicate()` under `asyncio.wait_for` did. -/
inductive CommOutcome where
  | completes (stdout stderr : String) (returncode : Int)
  | timesOut
deriving DecidableEq

/-- Outcome of `asyncio.create_subprocess_exec`. -/
inductive SpawnOutcome where
  | fileNotFound (msg : String)
  | otherError (msg : String)
  | spawned (comm : CommOutcome)
deriving DecidableEq

/-- Explicit process-management calls made by the handler. -/
inductive ProcAction where
  | kill
  | wait
deriving DecidableEq

/-- HTTP-level answer of `execute_shell`. -/
inductive ShellResponse where
  | httpError (status : Nat) (detail : String)
  | result (status : String) (return_code : Int) (output : String)
deriving DecidableEq

/-- `execute_shell` (`shell/server.py`, lines 15-49), `MAX_TIMEOUT = 10.0`.
On `asyncio.TimeoutError` the handler runs `proc.kill()`, then
`await proc.wait()` (reaping the child), then raises 408; a completed
process returns stripped stdout/stderr with the exit code (non-zero exit
is a structured `"error"` result, not an HTTP error). -/
def execute_shell (command : String) (shlexRes : Except String (List String))
    (spawn : SpawnOutcome) : ShellResponse × List ProcAction :=
  match shlexRes with
  | .error e => (.httpError 500 ("Internal Shell Error: " ++ e), [])
  | .ok _parts =>
    match spawn with
    | .fileNotFound e => (.httpError 400 ("Command not found on the system: " ++ e), [])
    | .otherError e => (.httpError 500 ("Internal Shell Error: " ++ e), [])
    | .spawned comm =>
      match comm with
      | .timesOut =>
        (.httpError 408 "Command timed out after 10.0s.", [ProcAction.kill, ProcAction.wait])
      | .completes out err rc =>
        if rc ≠ 0 then (.result "error" rc (strTrim err), [])
        else (.result "success" 0 (strTrim out), [])

/-! Embedding of `src/mcp_servers/fetch/server.py` (fetch backend).

The outbound `httpx` GET is an oracle; the Bool reports whether the GET
was issued.  `response.raise_for_status()` raises `httpx.HTTPStatusError`,
which is neither a `TimeoutException` nor a `RequestError`, so a remote
4xx/5xx falls through to the generic handler (500). -/

/-- Oracle outcome of `client.get(url, params, timeout)`. -/
inductive FetchNetOutcome where
  | responds (status : Nat) (contentType : String) (text : String)
  | timesOut
  | requestError (excName : String)
  | otherFail (msg : String)
deriving DecidableEq

/-- HTTP-level answer of `fetch_url`. -/
inductive FetchResponse where
  | httpError (status : Nat) (detail : String)
  | success (url : String) (status_code : Nat) (content_type : String) (content : String)
deriving DecidableEq

/-- `fetch_url` (`fetch/server.py`, lines 13-41).  The safety check is a
plain substring test on the whole URL string, performed before the GET. -/
def fetch_url (url : String) (params : List (String × String))
    (net : FetchNetOutcome) : FetchResponse × Bool :=
  if containsStr url "localhost" || containsStr url "127.0.0.1" then
    (.httpError 403 "Access to local network resources is forbidden.", false)
  else
    match net with
    | .responds st ctype text =>
      if 400 ≤ st then
        (.httpError 500 "Unexpected error during fetch: raise_for_status", true)
      else
        (.success url st ctype (strTake text 2000), true)
    | .timesOut => (.httpError 408 "External fetch request timed out.", true)
    | .requestError e => (.httpError 502 ("External request error: " ++ e), true)
    | .otherFail e => (.httpError 500 ("Unexpected error during fetch: " ++ e), true)

/-! Spec-side definitions.  These two follow the wording of the claims
("URL whose host is localhost or a loopback address literal"), not the
code; they exist only so the claims can be stated and compared with the
code's behaviour. -/

/-- Spec-side: the host portion of a URL — the authority after `"://"`,
up to the first `/`, with a bracketed IPv6 literal unwrapped and any
`:port` removed. -/
def urlHost (url : String) : String :=
  let afterScheme := (splitL "://".data url.data).getD 1 []
  let authority := afterScheme.takeWhile (fun c => c != '/')
  if authority.head? = some '[' then ⟨(authority.drop 1).takeWhile (fun c => c != ']')⟩
  else ⟨authority.takeWhile (fun c => c != ':')⟩

/-- Spec-side: `localhost` or a loopback address literal (IPv4 `127.*`,
IPv6 `::1`). -/
def isLoopbackHost (h : String) : Bool :=
  h == "localhost" || h == "::1" || "127.".data.isPrefixOf h.data

/-! Formal statements of the claims that the code refutes, exactly as the
claims are written; each is disproved at an explicit concrete input by
the corresponding counterexample theorem. -/

/-- C1 as stated: every query not beginning (case-insensitively) with
`SELECT` is rejected with a 400 and is neither executed nor committed. -/
def claimC1 : Prop :=
  ∀ (dbName? : Option String) (q : String) (pathExists : String → Bool)
    (run : String → String → SqliteOutcome),
    isSelectPrefixed q = false →
    (∃ d, (execute_query dbName? (some q) pathExists run).1 = .httpError 400 d) ∧
    (execute_query dbName? (some q) pathExists run).2.executedStmt = false ∧
    (execute_query dbName? (some q) pathExists run).2.committed = false

/-- C2 as stated: extraction from a fenced query block yields a
relational-query action whose query has no fence markers and no trailing
semicolon. -/
def claimC2 : Prop :=
  ∀ plan : String,
    containsStr plan primaryMarker = true →
    strStartsWith (actionBlock plan) "```sql" = true →
    ∃ cmd, parsePrimaryAction plan = .sqlAction cmd ∧
      containsStr cmd "```" = false ∧ strEndsWith cmd ";" = false

/-- C3 as stated: when the backend answers every request with a
client-side 400, a dispatched relational-query action is retried exactly
once, i.e. two POSTs are issued. -/
def claimC3 : Prop :=
  ∀ (plan : String) (net : String → ApiData → HttpResp),
    (∀ u d, net u d = .response 400 "") →
    (∃ cmd, parsePrimaryAction plan = .sqlAction cmd) →
    (execute_primary_action plan net).2.length = 2

/-- C4 as stated: a primary-action block opening with a bash fence is
classified as a shell action, regardless of bare tool-name tokens inside
the block. -/
def claimC4 : Prop :=
  ∀ plan : String,
    containsStr plan primaryMarker = true →
    strStartsWith (actionBlock plan) "```bash" = true →
    ∃ cmd, parsePrimaryAction plan = .shellAction cmd

/-- C5 as stated: every URL whose host is `localhost` or a loopback
literal is rejected with a 403 before any outbound request. -/
def claimC5 : Prop :=
  ∀ (url : String) (params : List (String × String)) (net : FetchNetOutcome),
    isLoopbackHost (urlHost url) = true →
    fetch_url url params net =
      (.httpError 403 "Access to local network resources is forbidden.", false)

set_option maxRecDepth 100000

/-! Concrete inputs used by counterexamples and witnesses. -/

/-- The end-to-end example plan text of the spec (§8). -/
def examplePlan : String :=
  "### PRIMARY ACTION (Executable):\n```sql\nSELECT path FROM file_metadata;\n```\n### FALLBACK STEPS (Hierarchy):\nUse RAG."

/-- A plan whose primary-action block is bash-fenced but also mentions
the bare token `SYSTEM_SQLITE` inside the fenced command. -/
def conflictPlan : String :=
  "### PRIMARY ACTION (Executable):\n```bash\necho SYSTEM_SQLITE\n```\n### FALLBACK STEPS (Hierarchy):\nnone"

/-- A plan with a plain bash-fenced block and no other tool marker. -/
def bashPlan : String :=
  "### PRIMARY ACTION (Executable):\n```bash\nls -la\n```\n### FALLBACK STEPS (Hierarchy):\nnone"

/-- C1 (counterexample): the relational-query backend does **not** reject
non-`SELECT` statements: on the non-SELECT query
`DELETE FROM file_metadata` (known database, existing file, sqlite
succeeding) it executes the statement, commits it, and answers with the
`executed` success shape — refuting the claim as stated. -/
theorem C1_claim_false : ¬ claimC1 := by
  intro h
  have h2 := h (some "system") "DELETE FROM file_metadata" (fun _ => true)
    (fun _ _ => .ok []) (by decide)
  have e : execute_query (some "system") (some "DELETE FROM file_metadata")
      (fun _ => true) (fun _ _ => .ok []) = (.executed "system", ⟨true, true⟩) := by decide
  rw [e] at h2
  obtain ⟨⟨d, hd⟩, -, -⟩ := h2
  simp at hd

/-- C1 (amended): the backend rejects with a 400 before executing only
the empty (after stripping) query — and, separately, unknown database
names; every other statement, `SELECT` or not, is handed to sqlite, and
a non-`SELECT` statement that sqlite accepts is **committed** and
answered with the `executed` status. -/
theorem C1_amended (dbName? : Option String) (q : String) (pathExists : String → Bool)
    (run : String → String → SqliteOutcome) :
    (strTrim q = "" →
      execute_query dbName? (some q) pathExists run =
        (.httpError 400 "Query cannot be empty", ⟨false, false⟩)) ∧
    (∀ db_path rows,
      DB_PATHS.lookup (dbName?.getD "system") = some db_path →
      strTrim q ≠ "" →
      pathExists db_path = true →
      run db_path (strTrim q) = .ok rows →
      isSelectPrefixed (strTrim q) = false →
      execute_query dbName? (some q) pathExists run =
        (.executed (dbName?.getD "system"), ⟨true, true⟩)) := by
  constructor
  · intro h
    simp [execute_query, h]
  · intro db_path rows hdb hne hpe hrun hsel
    simp [execute_query, hdb, hne, hpe, hrun, hsel]

/-- C1 (witness): the amended theorem applied to the concrete
counterexample input. -/
theorem C1_amended_witness :
    execute_query (some "system") (some "DELETE FROM file_metadata")
      (fun _ => true) (fun _ _ => .ok []) = (.executed "system", ⟨true, true⟩) :=
  (C1_amended (some "system") "DELETE FROM file_metadata" (fun _ => true)
    (fun _ _ => .ok [])).2 "/app/system.db" [] (by decide) (by decide) rfl rfl (by decide)

/-- C3 (counterexample): with a backend answering 400 to every request,
the dispatched relational-query action of the spec's example plan is
posted exactly once — there is no retry path in the source — refuting
the exactly-one-retry claim. -/
theorem C3_claim_false : ¬ claimC3 := by
  intro h
  have h2 := h examplePlan (fun _ _ => .response 400 "") (fun _ _ => rfl)
    ⟨"SELECT path FROM file_metadata;", by decide⟩
  have e : (execute_primary_action examplePlan (fun _ _ => .response 400 "")).2.length = 1 := by
    have hp : parsePrimaryAction examplePlan =
        .sqlAction "SELECT path FROM file_metadata;" := by decide
    simp [execute_primary_action, hp, postAction]
  rw [e] at h2
  simp at h2

/-- Every `postAction` issues exactly one POST, whatever the response. -/
theorem postAction_trace_length (t : ToolSpec) (d : ApiData)
    (net : String → ApiData → HttpResp) : (postAction t d net).2.length = 1 := by
  cases hn : net (mcpUrl t) d with
  | response st body =>
    simp only [postAction, hn]
    split <;> rfl
  | transportError m => simp [postAction, hn]

/-- C3 (amended): the dispatcher performs no retry at all: at most one
HTTP POST is issued per `execute_primary_action` run (exactly one when an
action is dispatched, zero otherwise), for every failure class including
a client-side 400. -/
theorem C3_amended (plan : String) (net : String → ApiData → HttpResp) :
    (execute_primary_action plan net).2.length ≤ 1 := by
  unfold execute_primary_action
  cases hp : parsePrimaryAction plan <;>
    simp [postAction_trace_length]

/-- C4 (counterexample): a bash-fenced block containing the bare token
`SYSTEM_SQLITE` is classified as a relational-query action — the bare
tool name overrides the fence tag because the SQL test runs first —
refuting the fence-precedence claim. -/
theorem C4_claim_false : ¬ claimC4 := by
  intro h
  obtain ⟨cmd, hc⟩ := h conflictPlan (by decide) (by decide)
  rw [show parsePrimaryAction conflictPlan = .sqlAction "bash\necho SYSTEM_SQLITE" from
    by decide] at hc
  exact ParsedDecision.noConfusion hc

/-- C4 (amended): classification tests the SQL markers first: any block
containing the bare token `SYSTEM_SQLITE` (even inside a bash fence) is
classified as a relational-query action; a bash-fenced block is
classified as a shell action only when that SQL test fails. -/
theorem C4_amended (plan : String)
    (hm : containsStr plan primaryMarker = true) :
    (containsStr (actionBlock plan) "SYSTEM_SQLITE" = true →
      ∃ cmd, parsePrimaryAction plan = .sqlAction cmd) ∧
    (strStartsWith (actionBlock plan) "```bash" = true →
      containsStr (actionBlock plan) "SYSTEM_SQLITE" = false →
      ∃ cmd, parsePrimaryAction plan = .shellAction cmd) := by
  constructor
  · intro hsql
    refine ⟨strTrim (strReplace (strReplace (strReplace (actionBlock plan) "```sql" "")
      "```" "") "SYSTEM_SQLITE:" ""), ?_⟩
    simp [parsePrimaryAction, hm, hsql]
  · intro hbash hns
    have hnotsql : strStartsWith (actionBlock plan) "```sql" = false := by
      unfold strStartsWith at hbash ⊢
      rw [List.isPrefixOf_iff_prefix] at hbash
      obtain ⟨t, ht⟩ := hbash
      rw [← ht]
      rfl
    refine ⟨strTrim (strReplace (strReplace (strReplace (actionBlock plan) "```bash" "")
      "```" "") "SHELL_COMMAND:" ""), ?_⟩
    simp [parsePrimaryAction, hm, hnotsql, hns, hbash]

/-- C4 (witness): the amended theorem applied to the two concrete plans:
the conflicting one classifies as SQL, the plain bash one as shell. -/
theorem C4_amended_witness :
    (∃ cmd, parsePrimaryAction conflictPlan = .sqlAction cmd) ∧
    (∃ cmd, parsePrimaryAction bashPlan = .shellAction cmd) :=
  ⟨(C4_amended conflictPlan (by decide)).1 (by decide),
   (C4_amended bashPlan (by decide)).2 (by decide) (by decide)⟩

/-- C5 (counterexample): the URL `http://[::1]/health` has the loopback
host `::1`, yet the fetch backend's substring check (`"localhost" in
url or "127.0.0.1" in url`) misses it and the outbound GET is issued —
refuting the claim for loopback literals other than `127.0.0.1`. -/
theorem C5_claim_false : ¬ claimC5 := by
  intro h
  have h2 := h "http://[::1]/health" [] (.responds 200 "text/html" "ok") (by decide)
  exact absurd h2 (by decide)

/-- C5 (amended): the backend rejects with 403, before any outbound
request, exactly the URL strings containing `"localhost"` or
`"127.0.0.1"` as substrings (hence every URL whose host is literally
`localhost` or `127.0.0.1`); other loopback literals such as `[::1]` or
`127.0.0.2` pass the check. -/
theorem C5_amended (url : String) (params : List (String × String))
    (net : FetchNetOutcome)
    (h : (containsStr url "localhost" || containsStr url "127.0.0.1") = true) :
    fetch_url url params net =
      (.httpError 403 "Access to local network resources is forbidden.", false) := by
  simp [fetch_url, h]

/-- C5 (witness): the amended theorem at a concrete localhost URL. -/
theorem C5_amended_witness :
    fetch_url "http://localhost:8002/execute_query" [] (.responds 200 "text/html" "ok") =
      (.httpError 403 "Access to local network resources is forbidden.", false) :=
  C5_amended "http://localhost:8002/execute_query" [] (.responds 200 "text/html" "ok")
    (by decide)

/-- C6: any code string containing a denylisted token — in particular the
token `"import "`, hence any ordinary import statement — is rejected with
the 403 response before `exec` is reached, whatever the surrounding
content and whatever `exec` would have done. -/
theorem C6_denylist_reject (code : String) (outcome : ExecOutcome) (kw : String)
    (hkw : kw ∈ pythonDenylist) (hc : containsStr code kw = true) :
    execute_python code outcome = (.forbidden pyForbiddenMsg, false) := by
  have hany : pythonDenylist.any (fun k => containsStr code k) = true :=
    List.any_eq_true.mpr ⟨kw, hkw, hc⟩
  simp [execute_python, hany]

/-- C6 (witness): the theorem at the concrete code `"import os"`. -/
theorem C6_witness :
    execute_python "import os" (ExecOutcome.ok []) = (.forbidden pyForbiddenMsg, false) :=
  C6_denylist_reject "import os" (ExecOutcome.ok []) "import " (by decide) (by decide)

/-- C7: whenever the spawned process outlives the 10-second ceiling
(`communicate` times out), the handler kills the process, then awaits it
(reaping it — no leaked process), and answers 408. -/
theorem C7_timeout_kills_and_reaps (command : String) (parts : List String) :
    execute_shell command (Except.ok parts) (SpawnOutcome.spawned CommOutcome.timesOut) =
      (.httpError 408 "Command timed out after 10.0s.",
       [ProcAction.kill, ProcAction.wait]) := rfl

/-- C8: a plan without the primary-action marker yields the parse-failure
result, with an empty request trace: the source returns on line 125,
before the registry is consulted and before any POST is issued. -/
theorem C8_no_marker_no_dispatch (plan : String) (net : String → ApiData → HttpResp)
    (h : containsStr plan primaryMarker = false) :
    execute_primary_action plan net = (.parseFailure parseFailMsg, []) := by
  have hp : parsePrimaryAction plan = .parseFailure := by
    simp [parsePrimaryAction, h]
  simp [execute_primary_action, hp]

/-- C8 (witness): the theorem at the concrete markerless plan `"hello"`. -/
theorem C8_witness :
    execute_primary_action "hello" (fun _ _ => HttpResp.transportError "refused") =
      (.parseFailure parseFailMsg, []) :=
  C8_no_marker_no_dispatch "hello" (fun _ _ => HttpResp.transportError "refused") (by decide)

/-- C9: extraction is deterministic and idempotent: it is a pure function
of the plan text — re-running it on the same input yields a structurally
identical `ParsedDecision` (the source extraction is branching and string
surgery only, with no state). -/
theorem C9_extraction_deterministic (p q : String) (h : p = q) :
    parsePrimaryAction p = parsePrimaryAction q := by rw [h]

/-- C9 (witness): the theorem at the spec's example plan. -/
theorem C9_witness :
    parsePrimaryAction examplePlan = parsePrimaryAction examplePlan :=
  C9_extraction_deterministic examplePlan examplePlan rfl

/-- C10: after a denylist pass and a successful `exec`, a scope binding
`output` but not `result` is answered with the value of `output` — an
undocumented second output variable — and only when neither is bound does
the backend answer with the designated no-result message. -/
theorem C10_output_variable_fallback (code : String) (scope : List (String × PyVal))
    (v : PyVal)
    (hd : pythonDenylist.any (fun kw => containsStr code kw) = false)
    (hr : scope.lookup "result" = none)
    (ho : scope.lookup "output" = some v) :
    execute_python code (ExecOutcome.ok scope) = (.success v, true) ∧
    (∀ scope2 : List (String × PyVal), scope2.lookup "result" = none →
      scope2.lookup "output" = none →
      execute_python code (ExecOutcome.ok scope2) =
        (.success (.str pyNoResultMsg), true)) := by
  constructor
  · simp [execute_python, hd, hr, ho]
  · intro s2 h1 h2
    simp [execute_python, hd, h1, h2]

/-- C10 (witness): the theorem at concrete code and scope. -/
theorem C10_witness :
    execute_python "x = 1" (ExecOutcome.ok [("output", PyVal.intv 42)]) =
      (.success (PyVal.intv 42), true) :=
  (C10_output_variable_fallback "x = 1" [("output", PyVal.intv 42)] (PyVal.intv 42)
    (by decide) (by decide) (by decide)).1

/-- C2 (counterexample): on the spec's own example plan — a fenced query
block whose body ends with a semicolon — extraction yields the query
`"SELECT path FROM file_metadata;"` **with** its trailing terminator: no
semicolon stripping exists in the source, refuting the claim. -/
theorem C2_claim_false : ¬ claimC2 := by
  intro h
  obtain ⟨cmd, hcmd, -, hend⟩ := h examplePlan (by decide) (by decide)
  rw [show parsePrimaryAction examplePlan =
    .sqlAction "SELECT path FROM file_metadata;" from by decide] at hcmd
  injection hcmd with h'
  subst h'
  exact absurd hend (by decide)

/-- C2 (amended): for every plan whose primary-action block is a fenced
query block (fence on its own lines, body free of backticks and of the
`SYSTEM_SQLITE:` token), extraction yields a relational-query action
whose query is the fenced body whitespace-trimmed, **verbatim**: the
fence markers are removed and no fence marker remains, but a trailing
statement terminator is retained — it is not stripped before the first
send (nor later: there is no retry). -/
theorem C2_amended (plan body : String)
    (hm : containsStr plan primaryMarker = true)
    (hb : (actionBlock plan).data = "```sql\n".data ++ body.data ++ "\n```".data)
    (hq : ∀ c ∈ body.data, c ≠ '`')
    (hs : isSubL "SYSTEM_SQLITE:".data body.data = false) :
    parsePrimaryAction plan = .sqlAction (strTrim body) ∧
    containsStr (strTrim body) "```" = false := by
  have hnb : '`' ∉ ('\n' :: (body.data ++ ['\n'])) := by
    simp only [List.mem_cons, List.mem_append, List.mem_singleton]
    push_neg
    exact ⟨by decide, fun hmem => hq '`' hmem rfl, by decide⟩
  have hA : (actionBlock plan).data =
      "```sql".data ++ (('\n' :: (body.data ++ ['\n'])) ++ "```".data) := by
    rw [hb]
    have e1 : "```sql\n".data = "```sql".data ++ ['\n'] := by decide
    have e2 : "\n```".data = '\n' :: "```".data := by decide
    rw [e1, e2]
    simp [List.append_assoc]
  have h1 : replaceL "```sql".data [] (actionBlock plan).data =
      ('\n' :: (body.data ++ ['\n'])) ++ "```".data := by
    rw [hA, replaceL_append_self _ _ _ (by decide), List.nil_append]
    have epat : "```sql".data = '`' :: "``sql".data := by decide
    rw [epat, replaceL_cons_notmem '`' _ _ _ _ hnb]
    congr 1
  have h2 : replaceL "```".data [] ((('\n' :: (body.data ++ ['\n']))) ++ "```".data) =
      '\n' :: (body.data ++ ['\n']) := by
    have epat3 : "```".data = '`' :: "``".data := by decide
    rw [epat3, replaceL_cons_notmem '`' _ _ _ _ hnb, ← epat3]
    rw [show replaceL "```".data ([] : List Char) "```".data = [] from by decide,
      List.append_nil]
  have h3 : replaceL "SYSTEM_SQLITE:".data [] ('\n' :: (body.data ++ ['\n'])) =
      '\n' :: (body.data ++ ['\n']) := by
    apply replaceL_of_not_infix
    intro hinf
    have e4 : "SYSTEM_SQLITE:".data = 'S' :: "YSTEM_SQLITE:".data := by decide
    rw [e4] at hinf
    have hinf2 := cons_infix_elim (by decide) hinf
    rw [← e4] at hinf2
    have e5 : "SYSTEM_SQLITE:".data = "SYSTEM_SQLITE".data ++ [':'] := by decide
    rw [e5] at hinf2
    have hinf3 := snoc_infix_elim (by decide) hinf2
    rw [← e5] at hinf3
    have hsub : isSubL "SYSTEM_SQLITE:".data body.data = true := (isSubL_iff _ _).mpr hinf3
    rw [hs] at hsub
    exact Bool.noConfusion hsub
  have h4 : trimL ('\n' :: (body.data ++ ['\n'])) = trimL body.data := by
    rw [trimL_cons_ws (by decide), trimL_append_ws (by decide)]
  have hstart : strStartsWith (actionBlock plan) "```sql" = true := by
    unfold strStartsWith
    rw [hA]
    exact isPrefixOf_append_self _ _
  constructor
  · have hcmd : strTrim (strReplace (strReplace (strReplace (actionBlock plan)
        "```sql" "") "```" "") "SYSTEM_SQLITE:" "") = strTrim body := by
      show String.mk (trimL (replaceL "SYSTEM_SQLITE:".data []
          (replaceL "```".data [] (replaceL "```sql".data [] (actionBlock plan).data)))) =
        String.mk (trimL body.data)
      rw [h1, h2, h3, h4]
    have hrun : parsePrimaryAction plan = .sqlAction (strTrim (strReplace (strReplace
        (strReplace (actionBlock plan) "```sql" "") "```" "") "SYSTEM_SQLITE:" "")) := by
      simp [parsePrimaryAction, hm, hstart]
    rw [hrun, hcmd]
  · show isSubL "```".data (strTrim body).data = false
    cases hct : isSubL "```".data (trimL body.data) with
    | false => exact hct
    | true =>
      exfalso
      have hinf := (isSubL_iff _ _).mp hct
      have hmem : '`' ∈ trimL body.data :=
        hinf.sublist.subset (show ('`' : Char) ∈ "```".data by decide)
      exact hq '`' (mem_trimL hmem) rfl

/-- C2 (witness): the amended theorem at the spec's example plan, whose
fenced body is `SELECT path FROM file_metadata;`. -/
theorem C2_amended_witness :
    parsePrimaryAction examplePlan =
      .sqlAction (strTrim "SELECT path FROM file_metadata;") ∧
    containsStr (strTrim "SELECT path FROM file_metadata;") "```" = false :=
  C2_amended examplePlan "SELECT path FROM file_metadata;" (by decide) (by decide)
    (by decide) (by decide)
